import Mathlib

/-!
# The nlan agent: dispatcher, RPC surface, batch mode and restart replay

A shallow embedding of `src/agent/main.go`.

* Mutable Go state (the `con.Context` behind `agent.con`, the log file, the
  standard logger's stream) is threaded explicitly.
* The packages `config/ptn`, `config/vhosts`, `config/router`, `common`, `util`,
  `env` and `model/nlan` are not in the source tree.  Their functions and
  constants are parameters (`Collab`, `Env`); sub-record types are type
  parameters `P D V R`, the host behind the command handles is `H`.
* A panic inside `route` is an explicit outcome, and the deferred `recover()`
  is the final step of `route`.  The value of a panic may be nil: `recover()`
  hands back the value given to `panic` as it is (the behaviour of the Go
  releases before 1.21, for which this code was written), so that the test
  `r != nil` of the deferred function is a real test.
* Every run returns the list of observable events it produced (entry into
  `route`, applier invocations, panics, writes to the log buffer, opening the
  listener), so that statements about who was invoked, how often and in which
  order are statements about that list.
-/

namespace Nlan

/-! ## Data model -/

/-- Modelled from the spec: the record `nlan.Model` of package `model/nlan` (absent)
is "a composite record with optional sub-records Pattern, Driver, VirtualHosts,
Router"; a sub-record that is nil is `none`. -/
structure Model (P D V R : Type) where
  Ptn : Option P
  Dvr : Option D
  Vhosts : Option V
  Router : Option R
deriving DecidableEq

/-- Modelled from the spec: `nlan.Request` of package `model/nlan` (absent) "wraps one
ConfigurationModel"; the field is a pointer, `none` is the nil pointer. -/
structure Request (P D V R : Type) where
  Model : Option (Model P D V R)
deriving DecidableEq

/-- Modelled from the spec: `nlan.Response` is `{exitCode, logMessage}`. -/
structure Response where
  Exit : Nat
  LogMessage : String
deriving DecidableEq

/-- Modelled from the spec: `st.State` of package `state` (absent) is
`{router: targetIdentifier, model: ConfigurationModel}`. -/
structure State (P D V R : Type) where
  Router : String
  Model : Model P D V R
deriving DecidableEq

/-- Modelled from the spec: the accessor `GetPtn` of package `model/nlan` (absent);
presence is structural, and a nil model has no sub-record. -/
def GetPtn {P D V R : Type} (m : Option (Model P D V R)) : Option P :=
  match m with
  | some x => x.Ptn
  | none => none

/-- Modelled from the spec: the accessor `GetDvr` of package `model/nlan` (absent). -/
def GetDvr {P D V R : Type} (m : Option (Model P D V R)) : Option D :=
  match m with
  | some x => x.Dvr
  | none => none

/-- Modelled from the spec: the accessor `GetVhosts` of package `model/nlan` (absent). -/
def GetVhosts {P D V R : Type} (m : Option (Model P D V R)) : Option V :=
  match m with
  | some x => x.Vhosts
  | none => none

/-- Modelled from the spec: the accessor `GetRouter` of package `model/nlan` (absent). -/
def GetRouter {P D V R : Type} (m : Option (Model P D V R)) : Option R :=
  match m with
  | some x => x.Router
  | none => none

/-- The value of a panic as `recover()` returns it: `none` is the nil interface
value (`panic(nil)`), `some t` a non-nil value whose default rendering is `t`. -/
abbrev PanicValue := Option String

/-- A sub-record tagged with its configuration domain. -/
inductive Sub (P D V R : Type) where
  | ptn (p : P)
  | dvr (d : D)
  | vhosts (v : V)
  | router (r : R)
deriving DecidableEq

/-- Observable events of a run. -/
inductive Event (P D V R : Type) where
  /-- Entry into `agent.route` with its three arguments. -/
  | route (crud : Int) (req : Request P D V R) (configMode : Int)
  /-- One invocation `config_x.Crud(crud, sub, a.con)`. -/
  | crud (crud : Int) (sub : Sub P D V R)
  /-- The applier just invoked panicked with the value `r`. -/
  | panic (r : PanicValue)
  /-- The bytes `s` were appended to the log buffer. -/
  | write (s : String)
  /-- The call `net.Listen("tcp", env.PORT)`. -/
  | listen
deriving DecidableEq

/-! ## Logger and execution context -/

/-- A `*log.Logger` created with `log.New(out, pfx, log.LstdFlags)`: the line
header is the fixed text `pfx` followed by the date and time.  The clock reading
is the field `stamp`. -/
structure Logger where
  pfx : String
  stamp : String
deriving DecidableEq

/-- The test `len(s) == 0 || s[len(s)-1] != '\n'` of `Logger.Output`. -/
def needsNewline (s : String) : Bool :=
  s.data.getLast? != some '\n'

/-- The bytes one `Logger.Output(_, s)` call writes: header, message, and a
newline unless the message already ends in one. -/
def Logger.Output (l : Logger) (s : String) : String :=
  l.pfx ++ l.stamp ++ s ++ (if needsNewline s then "\n" else "")

/-- The struct `con.Context` as `main` builds it: `Logger` writes into `Logbuf`;
`Host` is what the handles `Cmd` and `CmdP` act on. -/
structure Context (H : Type) where
  Logger : Logger
  Logbuf : String
  Host : H
deriving DecidableEq

/-- The struct `agent`. -/
structure agent (H : Type) where
  con : Context H
deriving DecidableEq

/-- What one applier invocation does: the text it logs through the context,
the host it leaves behind, and whether it returns (`none`) or panics with the
value `r` (`some r`; the value itself may be nil). -/
structure Outcome (H : Type) where
  logged : String
  host : H
  panicked : Option PanicValue

/-- Modelled from the spec: the constants of package `env` (absent). -/
structure Env where
  ADD : Int
  UPDATE : Int
  DELETE : Int
  RESTART : Int
deriving DecidableEq

/-- Modelled from the spec: the collaborators of `main.go` that live in absent
packages.  The appliers follow "Crud(operation, subRecord, executionContext) ...
use the Execution Context only for logging/host-command side effects";
`WriteLog filename file buf` takes the content `file` of the named log file and
the buffer, and returns the new file content and what it leaves in the buffer; `ReadState filename roster` returns the records of the state file;
`Clear` is `rpc.Clear`;
`RegisterHost`, `GetMode`, `GetState` are the state store; `CONFIG` and `DEBUG`
are the constants of `util`; `fmtModel` and `fmtRequest` are the `%v`
renderings. -/
structure Collab (H P D V R : Type) where
  ptn : Int → P → Context H → Outcome H
  vhosts : Int → V → Context H → Outcome H
  router : Int → R → Context H → Outcome H
  WriteLog : String → String → String → String × String
  ReadState : String → Option String → List (State P D V R)
  Clear : Context H → Context H
  RegisterHost : String
  GetMode : String → Int
  GetState : String → Model P D V R
  CONFIG : Int
  DEBUG : Int
  fmtModel : Model P D V R → String
  fmtRequest : Request P D V R → String

/-! ## The dispatcher -/

/-- The state of one routing pass: the context and the events so far. -/
structure Pass (H P D V R : Type) where
  con : Context H
  events : List (Event P D V R)

/-- The call `logger.Print(msg)` on the context's logger. -/
def Pass.Print {H P D V R : Type} (s : Pass H P D V R) (msg : String) : Pass H P D V R :=
  { con := { s.con with Logbuf := s.con.Logbuf ++ s.con.Logger.Output msg }
    events := s.events ++ [Event.write (s.con.Logger.Output msg)] }

/-- The call `logger.Println(r)`: `fmt.Sprintln` puts a newline after the text. -/
def Pass.Println {H P D V R : Type} (s : Pass H P D V R) (r : String) : Pass H P D V R :=
  s.Print (r ++ "\n")

/-- One applier invocation `config_x.Crud(crud, sub, a.con)`; the second
component is the panic value when the applier panics. -/
def Pass.Crud {H P D V R : Type} (s : Pass H P D V R) (crud : Int) (sub : Sub P D V R)
    (f : Context H → Outcome H) : Pass H P D V R × Option PanicValue :=
  ({ con := { s.con with Logbuf := s.con.Logbuf ++ (f s.con).logged, Host := (f s.con).host }
     events := s.events ++ [Event.crud crud sub, Event.write (f s.con).logged] ++
       (match (f s.con).panicked with
        | some r => [Event.panic r]
        | none => []) },
   (f s.con).panicked)

/-- Sequencing of statements: a panic skips the rest of the function body. -/
def andThen {H P D V R : Type} (x : Pass H P D V R × Option PanicValue)
    (f : Pass H P D V R → Pass H P D V R × Option PanicValue) :
    Pass H P D V R × Option PanicValue :=
  match x.2 with
  | some r => (x.1, some r)
  | none => f x.1

/-- Lines 44-58 of `route`: the four `if x != nil` statements. -/
def routeBody {H P D V R : Type} (cb : Collab H P D V R) (crud : Int)
    (ptn : Option P) (dvr : Option D) (vhosts : Option V) (router : Option R)
    (s : Pass H P D V R) : Pass H P D V R × Option PanicValue :=
  andThen
    (match ptn with
     | some p => (s.Print "Routing to PTN module...").Crud crud (Sub.ptn p) (cb.ptn crud p)
     | none => (s, none))
  fun s1 => andThen
    (match dvr with
     | some _ => (s1, none)
     | none => (s1, none))
  fun s2 => andThen
    (match vhosts with
     | some v => (s2.Print "Routing to VHOSTS module...").Crud crud (Sub.vhosts v) (cb.vhosts crud v)
     | none => (s2, none))
  fun s3 =>
    (match router with
     | some r => (s3.Print "Routing to ROUTER module...").Crud crud (Sub.router r) (cb.router crud r)
     | none => (s3, none))

/-- The result of `route`: the agent afterwards, the exit code, the events. -/
structure Run (H P D V R : Type) where
  a : agent H
  exit : Nat
  events : List (Event P D V R)

/-- The builtin `recover()` called in the deferred function: the value of the
panic that ended the body, nil when the body returned or the panic value is
nil. -/
def recover (ending : Option PanicValue) : Option String :=
  match ending with
  | some r => r
  | none => none

/-- The method `agent.route`.  The deferred function runs last, after a normal
return and after a panic alike: `if r := recover(); r != nil` logs the value
with `Println` and sets `exit` to 1; otherwise `exit` keeps the value 0. -/
def agent.route {H P D V R : Type} (cb : Collab H P D V R) (a : agent H) (crud : Int)
    (req : Request P D V R) (configMode : Int) : Run H P D V R :=
  let model := req.Model
  let ptn := GetPtn model
  let dvr := GetDvr model
  let vhosts := GetVhosts model
  let router := GetRouter model
  let body := routeBody cb crud ptn dvr vhosts router
    { con := a.con, events := [Event.route crud req configMode] }
  match recover body.2 with
  | some r => { a := { con := (body.1.Println r).con }, exit := 1, events := (body.1.Println r).events }
  | none => { a := { con := body.1.con }, exit := 0, events := body.1.events }

/-- Returns a log message as a string. -/
def agent.logMessage {H : Type} (a : agent H) : String :=
  a.con.Logbuf

/-- Returns the log buffer. -/
def agent.logBuf {H : Type} (a : agent H) : String :=
  a.con.Logbuf

/-! ## Observations on event lists -/

/-- The applier invocations in an event list, in order. -/
def invoked {P D V R : Type} : List (Event P D V R) → List (Int × Sub P D V R)
  | [] => []
  | Event.crud c s :: es => (c, s) :: invoked es
  | _ :: es => invoked es

/-- The text written to the log buffer by an event list. -/
def emitted {P D V R : Type} : List (Event P D V R) → String
  | [] => ""
  | Event.write s :: es => s ++ emitted es
  | _ :: es => emitted es

/-- The panic values in an event list, in order. -/
def panics {P D V R : Type} : List (Event P D V R) → List PanicValue
  | [] => []
  | Event.panic r :: es => r :: panics es
  | _ :: es => panics es

/-- The `route` calls in an event list: operation code and request. -/
def routed {P D V R : Type} : List (Event P D V R) → List (Int × Request P D V R)
  | [] => []
  | Event.route c q _ :: es => (c, q) :: routed es
  | _ :: es => routed es

/-- The invocations the spec declares: "in a fixed declared order
(pattern → driver → virtual-hosts → router)", one per present sub-record. -/
def specCalls {P D V R : Type} (crud : Int) (m : Option (Model P D V R)) :
    List (Int × Sub P D V R) :=
  (match GetPtn m with | some p => [(crud, Sub.ptn p)] | none => []) ++
  (match GetDvr m with | some d => [(crud, Sub.dvr d)] | none => []) ++
  (match GetVhosts m with | some v => [(crud, Sub.vhosts v)] | none => []) ++
  (match GetRouter m with | some r => [(crud, Sub.router r)] | none => [])

/-- The present sub-records of the three domains that have an applier, in the
order pattern, virtual-hosts, router. -/
def applierCalls {P D V R : Type} (crud : Int) (m : Option (Model P D V R)) :
    List (Int × Sub P D V R) :=
  (match GetPtn m with | some p => [(crud, Sub.ptn p)] | none => []) ++
  (match GetVhosts m with | some v => [(crud, Sub.vhosts v)] | none => []) ++
  (match GetRouter m with | some r => [(crud, Sub.router r)] | none => [])

/-! ## The pass as a list of stages

The same pass written as a recursion over the present appliers; `routeBody` is
shown equal to it below, and the properties of `route` are proved by induction
on this list. -/

/-- One `if x != nil` statement whose branch calls an applier. -/
structure Stage (H P D V R : Type) where
  msg : String
  sub : Sub P D V R
  f : Context H → Outcome H

/-- The stages `route` goes through for a model, in source order. -/
def stagesOf {H P D V R : Type} (cb : Collab H P D V R) (crud : Int)
    (ptn : Option P) (vhosts : Option V) (router : Option R) : List (Stage H P D V R) :=
  (match ptn with
   | some p => [⟨"Routing to PTN module...", Sub.ptn p, cb.ptn crud p⟩]
   | none => []) ++
  (match vhosts with
   | some v => [⟨"Routing to VHOSTS module...", Sub.vhosts v, cb.vhosts crud v⟩]
   | none => []) ++
  (match router with
   | some r => [⟨"Routing to ROUTER module...", Sub.router r, cb.router crud r⟩]
   | none => [])

/-- Runs stages one after the other until one panics. -/
def runStages {H P D V R : Type} (crud : Int) :
    List (Stage H P D V R) → Pass H P D V R → Pass H P D V R × Option PanicValue
  | [], s => (s, none)
  | st :: rest, s => andThen ((s.Print st.msg).Crud crud st.sub st.f) (runStages crud rest)

/-- The invocations a list of stages stands for. -/
def callsOf {H P D V R : Type} (crud : Int) (l : List (Stage H P D V R)) :
    List (Int × Sub P D V R) :=
  l.map fun st => (crud, st.sub)

/-! ## The process around the agent -/

/-- The process state `main` and the RPC methods act on: the agent, the events
so far, the environment variable `HOSTNAME`, the standard logger (`log.Print`,
`log.Printf`) with the stream it writes to, and the content of the log file
named by `logFile`. -/
structure World (H P D V R : Type) where
  a : agent H
  trace : List (Event P D V R)
  HOSTNAME : String
  std : Logger
  stderr : String
  logfile : String

/-- Returns a log file name. -/
def logFile (HOSTNAME : String) : String :=
  "nlan-agent-" ++ HOSTNAME ++ ".log"

/-- The call `logger.Print(msg)` in `main`, on the logger of the context. -/
def World.Print {H P D V R : Type} (w : World H P D V R) (msg : String) : World H P D V R :=
  { w with
    a := { con := { w.a.con with Logbuf := w.a.con.Logbuf ++ w.a.con.Logger.Output msg } }
    trace := w.trace ++ [Event.write (w.a.con.Logger.Output msg)] }

/-- The call `log.Print(msg)` on the standard logger. -/
def World.stdPrint {H P D V R : Type} (w : World H P D V R) (msg : String) : World H P D V R :=
  { w with stderr := w.stderr ++ w.std.Output msg }

/-- The call `a.route(crud, &request, configMode)` made from `main` or from an
RPC method: the agent is updated and the events are recorded. -/
def World.route {H P D V R : Type} (cb : Collab H P D V R) (w : World H P D V R) (crud : Int)
    (req : Request P D V R) (configMode : Int) : World H P D V R × Nat :=
  ({ w with a := (w.a.route cb crud req configMode).a
            trace := w.trace ++ (w.a.route cb crud req configMode).events },
   (w.a.route cb crud req configMode).exit)

/-- The call `common.WriteLog(logFile(), a.logBuf())`. -/
def World.WriteLog {H P D V R : Type} (cb : Collab H P D V R) (w : World H P D V R) :
    World H P D V R :=
  { w with
    logfile := (cb.WriteLog (logFile w.HOSTNAME) w.logfile w.a.logBuf).1
    a := { con := { w.a.con with
                    Logbuf := (cb.WriteLog (logFile w.HOSTNAME) w.logfile w.a.logBuf).2 } } }

/-- The function `clear`. -/
def clear {H P D V R : Type} (cb : Collab H P D V R) (con : Context H) : Context H :=
  cb.Clear con

/-- The gRPC Hello method: the argument is not used. -/
def Hello (_cp : List String) : List String × Option String :=
  (["hello"], none)

/-- The gRPC clear method: `nlan.ClearMode` is ignored. -/
def Clear {H P D V R : Type} (cb : Collab H P D V R) (w : World H P D V R) :
    World H P D V R × (Response × Option String) :=
  ({ w with a := { con := clear cb w.a.con } }, ({ Exit := 0, LogMessage := "Cleared" }, none))

/-- The common body of the gRPC methods `Add`, `Update` and `Delete`: the
second component is the returned `(*nlan.Response, error)`, with `none` for a
nil error. -/
def rpcCall {H P D V R : Type} (cb : Collab H P D V R) (w : World H P D V R) (crud : Int)
    (req : Request P D V R) : World H P D V R × (Response × Option String) :=
  let routed := w.route cb crud req cb.CONFIG
  let response : Response := { Exit := routed.2, LogMessage := routed.1.a.logMessage }
  ((routed.1).WriteLog cb, (response, none))

/-- The gRPC Add method. -/
def Add {H P D V R : Type} (cb : Collab H P D V R) (env : Env) (w : World H P D V R)
    (req : Request P D V R) : World H P D V R × (Response × Option String) :=
  rpcCall cb w env.ADD req

/-- The gRPC Update method. -/
def Update {H P D V R : Type} (cb : Collab H P D V R) (env : Env) (w : World H P D V R)
    (req : Request P D V R) : World H P D V R × (Response × Option String) :=
  rpcCall cb w env.UPDATE req

/-- The gRPC Delete method. -/
def Delete {H P D V R : Type} (cb : Collab H P D V R) (env : Env) (w : World H P D V R)
    (req : Request P D V R) : World H P D V R × (Response × Option String) :=
  rpcCall cb w env.DELETE req

/-- The three mutating RPC methods. -/
inductive Rpc where
  | Add
  | Update
  | Delete
deriving DecidableEq

/-- The operation code an RPC method routes with. -/
def opOf (env : Env) : Rpc → Int
  | Rpc.Add => env.ADD
  | Rpc.Update => env.UPDATE
  | Rpc.Delete => env.DELETE

/-- One incoming RPC call. -/
def serve {H P D V R : Type} (cb : Collab H P D V R) (env : Env) (w : World H P D V R)
    (c : Rpc × Request P D V R) : World H P D V R × (Response × Option String) :=
  match c.1 with
  | Rpc.Add => Add cb env w c.2
  | Rpc.Update => Update cb env w c.2
  | Rpc.Delete => Delete cb env w c.2

/-- A sequence of RPC calls served one after the other: the process state at
the end and the responses in order. -/
def serveAll {H P D V R : Type} (cb : Collab H P D V R) (env : Env) :
    World H P D V R → List (Rpc × Request P D V R) → World H P D V R × List Response
  | w, [] => (w, [])
  | w, c :: cs =>
    ((serveAll cb env (serve cb env w c).1 cs).1,
     (serve cb env w c).2.1 :: (serveAll cb env (serve cb env w c).1 cs).2)

/-! ## `main` -/

/-- The command line: each flag as given, `none` when absent. -/
structure Flags where
  ope : Option String
  state : Option String
  roster : Option String
  mode : Option String

/-- The call `flag.String(name, value, usage)` after `flag.Parse()`: the given
text, or the default `value`. -/
def flagString (value : String) (given : Option String) : String :=
  match given with
  | some s => s
  | none => value

/-- The `switch *mode` of `main`; `configMode` keeps its zero value when no case
matches. -/
def configModeOf {H P D V R : Type} (cb : Collab H P D V R) (mode : String) : Int :=
  match mode with
  | "debug" => cb.DEBUG
  | "config" => cb.CONFIG
  | _ => 0

/-- The `switch *ope` of the batch loop; `ope_` keeps its zero value when no
case matches. -/
def opeCode (env : Env) (ope : String) : Int :=
  match ope with
  | "add" => env.ADD
  | "update" => env.UPDATE
  | "delete" => env.DELETE
  | _ => 0

/-- The body of the loop `for _, v := range *states`. -/
def batchStep {H P D V R : Type} (cb : Collab H P D V R) (env : Env) (target ope : String)
    (configMode : Int) (w : World H P D V R) (v : State P D V R) : World H P D V R :=
  let router := v.Router
  let model := v.Model
  let w1 := w.stdPrint ("target: " ++ target ++ " -- router: " ++ router ++ "\n")
  if router = target then
    let request : Request P D V R := { Model := some model }
    let ope_ := opeCode env ope
    let w2 := (w1.route cb ope_ request configMode).1
    w2.stdPrint w2.a.logMessage
  else
    w1

/-- The loop `for _, v := range *states` of direct config mode. -/
def batchLoop {H P D V R : Type} (cb : Collab H P D V R) (env : Env) (target ope : String)
    (configMode : Int) (w : World H P D V R) (states : List (State P D V R)) :
    World H P D V R :=
  states.foldl (batchStep cb env target ope configMode) w

/-- The gRPC server mode of `main`, up to the listener: registration, the
restart replay when the mode is `RESTART`, then `net.Listen`. -/
def serverStartup {H P D V R : Type} (cb : Collab H P D V R) (env : Env) (configMode : Int)
    (w : World H P D V R) : World H P D V R :=
  let w1 := w.Print "### gRPC server mode ###"
  let router := cb.RegisterHost
  let mode := cb.GetMode router
  let w2 := w1.Print ("Start mode: " ++ toString mode)
  let w3 :=
    if mode = env.RESTART then
      let w4 := w2.Print "Restarting..."
      let state := cb.GetState router
      let request : Request P D V R := { Model := some state }
      let w5 := w4.Print ("State for " ++ router ++ ": " ++ cb.fmtModel state)
      let w6 := w5.Print ("Request: " ++ cb.fmtRequest request)
      let routed := w6.route cb env.ADD request configMode
      routed.1.Print ("Restarted: " ++ toString routed.2)
    else
      w2
  { w3 with trace := w3.trace ++ [Event.listen] }

/-- The `switch *roster` of direct config mode: the records read from the state
file, without or with the roster. -/
def readStates {H P D V R : Type} (cb : Collab H P D V R) (filename roster : String) :
    List (State P D V R) :=
  match roster with
  | "" => cb.ReadState filename none
  | _ => cb.ReadState filename (some roster)

/-- The process state `main` sets up before it looks at the mode: an empty log
buffer behind a logger with the header `[HOSTNAME] `, and the agent on it.
`stamp` and `host` are the clock and the host behind `util.GetCmd`. -/
def initWorld {H P D V R : Type} (HOSTNAME stamp : String) (host : H) : World H P D V R :=
  { a := { con := { Logger := { pfx := "[" ++ HOSTNAME ++ "] ", stamp := stamp },
                    Logbuf := "", Host := host } }
    trace := []
    HOSTNAME := HOSTNAME
    std := { pfx := "", stamp := stamp }
    stderr := ""
    logfile := "" }

/-- The function `main`: the process state when the batch has ended and the
deferred function has run (direct config mode), or when the listener has been
opened (gRPC server mode). -/
def main {H P D V R : Type} (cb : Collab H P D V R) (env : Env) (HOSTNAME : String)
    (flags : Flags) (stamp : String) (host : H) : World H P D V R :=
  let target := HOSTNAME
  let ope := flagString "ADD" flags.ope
  let filename := flagString "" flags.state
  let roster := flagString "" flags.roster
  let mode := flagString "config" flags.mode
  let configMode := configModeOf cb mode
  let w0 : World H P D V R := initWorld HOSTNAME stamp host
  if filename ≠ "" then
    let w1 := w0.Print "### Direct config mode ###"
    let states := readStates cb filename roster
    let w2 := batchLoop cb env target ope configMode w1 states
    (w2.stdPrint w2.a.logMessage).WriteLog cb
  else
    serverStartup cb env configMode w0

/-! ## Concrete collaborators used in the examples -/

/-- An applier outcome that logs `t` and returns. -/
def okOutcome (t : String) (c : Context Unit) : Outcome Unit :=
  { logged := t, host := c.Host, panicked := none }

/-- An applier outcome that panics with the non-nil value `r`. -/
def panicOutcome (r : String) (c : Context Unit) : Outcome Unit :=
  { logged := "", host := c.Host, panicked := some (some r) }

/-- An applier outcome that is `panic(nil)`. -/
def panicNilOutcome (c : Context Unit) : Outcome Unit :=
  { logged := "", host := c.Host, panicked := some none }

/-- Appliers that never panic; `WriteLog` appends the buffer to the file and
empties the buffer. -/
def cbOk : Collab Unit Nat Nat Nat Nat where
  ptn := fun _ _ => okOutcome "ptn ok\n"
  vhosts := fun _ _ => okOutcome "vhosts ok\n"
  router := fun _ _ => okOutcome "router ok\n"
  WriteLog := fun _ file buf => (file ++ buf, "")
  Clear := fun c => c
  ReadState := fun _ _ =>
    [⟨"A", ⟨none, none, some 3, none⟩⟩, ⟨"B", ⟨some 1, none, none, none⟩⟩,
     ⟨"A", ⟨none, none, none, some 4⟩⟩]
  RegisterHost := "A"
  GetMode := fun _ => 0
  GetState := fun _ => ⟨none, none, none, some 7⟩
  CONFIG := 0
  DEBUG := 1
  fmtModel := fun _ => "model"
  fmtRequest := fun _ => "request"

/-- As `cbOk`, with a virtual-hosts applier that panics. -/
def cbPanic : Collab Unit Nat Nat Nat Nat :=
  { cbOk with vhosts := fun _ _ => panicOutcome "boom" }

/-- As `cbOk`, with a virtual-hosts applier that panics with nil. -/
def cbNil : Collab Unit Nat Nat Nat Nat :=
  { cbOk with vhosts := fun _ _ => panicNilOutcome }

/-- An agent with an empty log buffer. -/
def a0 : agent Unit :=
  { con := { Logger := { pfx := "[A] ", stamp := "T " }, Logbuf := "", Host := () } }

/-- A process around `a0` with nothing logged yet. -/
def w0 : World Unit Nat Nat Nat Nat :=
  { a := a0, trace := [], HOSTNAME := "A", std := { pfx := "", stamp := "T " },
    stderr := "", logfile := "" }

/-! ## Lemmas on event lists and on the routing pass -/

@[simp]
theorem invoked_append {P D V R : Type} (xs ys : List (Event P D V R)) :
    invoked (xs ++ ys) = invoked xs ++ invoked ys := by
  induction xs with
  | nil => rfl
  | cons e es ih => cases e <;> simp [invoked, ih]

@[simp]
theorem emitted_append {P D V R : Type} (xs ys : List (Event P D V R)) :
    emitted (xs ++ ys) = emitted xs ++ emitted ys := by
  induction xs with
  | nil => simp [emitted]
  | cons e es ih => cases e <;> simp [emitted, ih, String.append_assoc]

@[simp]
theorem panics_append {P D V R : Type} (xs ys : List (Event P D V R)) :
    panics (xs ++ ys) = panics xs ++ panics ys := by
  induction xs with
  | nil => rfl
  | cons e es ih => cases e <;> simp [panics, ih]

@[simp]
theorem routed_append {P D V R : Type} (xs ys : List (Event P D V R)) :
    routed (xs ++ ys) = routed xs ++ routed ys := by
  induction xs with
  | nil => rfl
  | cons e es ih => cases e <;> simp [routed, ih]

theorem andThen_ret {H P D V R : Type} (x : Pass H P D V R × Option PanicValue) :
    andThen x (fun s => (s, none)) = x := by
  rcases x with ⟨s, _ | r⟩ <;> rfl

theorem andThen_nil {H P D V R : Type} (crud : Int)
    (x : Pass H P D V R × Option PanicValue) :
    andThen x (runStages crud []) = x :=
  andThen_ret x

theorem andThen_pure {H P D V R : Type} (s : Pass H P D V R)
    (f : Pass H P D V R → Pass H P D V R × Option PanicValue) :
    andThen (s, none) f = f s := rfl

theorem routeBody_eq_runStages {H P D V R : Type} (cb : Collab H P D V R) (crud : Int)
    (ptn : Option P) (dvr : Option D) (vhosts : Option V) (router : Option R)
    (s : Pass H P D V R) :
    routeBody cb crud ptn dvr vhosts router s
      = runStages crud (stagesOf cb crud ptn vhosts router) s := by
  cases ptn <;> cases dvr <;> cases vhosts <;> cases router <;>
    simp [routeBody, stagesOf, runStages, andThen_nil, andThen_pure, andThen_ret]

theorem callsOf_stagesOf {H P D V R : Type} (cb : Collab H P D V R) (crud : Int)
    (m : Option (Model P D V R)) :
    callsOf crud (stagesOf cb crud (GetPtn m) (GetVhosts m) (GetRouter m))
      = applierCalls crud m := by
  unfold applierCalls stagesOf callsOf
  cases GetPtn m <;> cases GetVhosts m <;> cases GetRouter m <;> rfl

/-- What a run of stages does to the pass: it only appends events, the buffer
grows by the text of the new write events, and either every stage was invoked
and none panicked, or the events end with the invocation that panicked. -/
theorem runStages_spec {H P D V R : Type} (crud : Int) (l : List (Stage H P D V R)) :
    ∀ s : Pass H P D V R, ∃ new : List (Event P D V R),
      (runStages crud l s).1.events = s.events ++ new ∧
      (runStages crud l s).1.con.Logbuf = s.con.Logbuf ++ emitted new ∧
      (runStages crud l s).1.con.Logger = s.con.Logger ∧
      (routed new = [] ∧ Event.listen ∉ new) ∧
      (((runStages crud l s).2 = none ∧ invoked new = callsOf crud l ∧ panics new = []) ∨
       (∃ r pre c sub t, (runStages crud l s).2 = some r ∧
          new = pre ++ [Event.crud c sub, Event.write t, Event.panic r] ∧
          panics pre = [] ∧ invoked pre ++ [(c, sub)] <+: callsOf crud l)) := by
  induction l with
  | nil =>
    intro s
    exact ⟨[], by simp [runStages, emitted], by simp [runStages, emitted], rfl,
      ⟨rfl, by simp⟩, Or.inl ⟨rfl, rfl, rfl⟩⟩
  | cons st rest ih =>
    intro s
    have h2 : ((s.Print st.msg).Crud crud st.sub st.f).2
        = (st.f (s.Print st.msg).con).panicked := rfl
    have he : ((s.Print st.msg).Crud crud st.sub st.f).1.events
        = s.events ++ ([Event.write (s.con.Logger.Output st.msg), Event.crud crud st.sub,
            Event.write (st.f (s.Print st.msg).con).logged] ++
            (match (st.f (s.Print st.msg).con).panicked with
             | some r => [Event.panic r]
             | none => [])) := by
      simp [Pass.Crud, Pass.Print]
    have hb : ((s.Print st.msg).Crud crud st.sub st.f).1.con.Logbuf
        = s.con.Logbuf ++ (s.con.Logger.Output st.msg ++ (st.f (s.Print st.msg).con).logged) := by
      simp [Pass.Crud, Pass.Print, String.append_assoc]
    have hl : ((s.Print st.msg).Crud crud st.sub st.f).1.con.Logger = s.con.Logger := rfl
    have hr : runStages crud (st :: rest) s
        = andThen ((s.Print st.msg).Crud crud st.sub st.f) (runStages crud rest) := rfl
    generalize (s.Print st.msg).Crud crud st.sub st.f = x at h2 he hb hl hr
    generalize (st.f (s.Print st.msg).con).panicked = q at h2 he
    generalize (st.f (s.Print st.msg).con).logged = t at he hb
    generalize s.con.Logger.Output st.msg = line at he hb
    cases q with
    | some r =>
      have hrun : runStages crud (st :: rest) s = (x.1, some r) := by
        rw [hr]; unfold andThen; rw [h2]
      refine ⟨[Event.write line, Event.crud crud st.sub, Event.write t, Event.panic r],
        ?_, ?_, ?_, ?_, ?_⟩
      · rw [hrun]; simpa using he
      · rw [hrun]; simp [hb, emitted]
      · rw [hrun]; exact hl
      · simp [routed]
      · refine Or.inr ⟨r, [Event.write line], crud, st.sub, t, ?_, ?_, ?_, ?_⟩
        · rw [hrun]
        · simp
        · simp [panics]
        · simp [invoked, callsOf]
    | none =>
      have hrun : runStages crud (st :: rest) s = runStages crud rest x.1 := by
        rw [hr]; unfold andThen; rw [h2]
      obtain ⟨new, hev, hbuf, hlog, ⟨hrt, hli⟩, hcase⟩ := ih x.1
      refine ⟨[Event.write line, Event.crud crud st.sub, Event.write t] ++ new,
        ?_, ?_, ?_, ?_, ?_⟩
      · rw [hrun, hev, he]; simp
      · rw [hrun, hbuf, hb]; simp [emitted, String.append_assoc]
      · rw [hrun, hlog, hl]
      · simp [routed, hrt, hli]
      · rcases hcase with ⟨h2, hinv, hpan⟩ | ⟨r, pre, c, sub, t2, h2, hnew, hpre, hpfx⟩
        · exact Or.inl ⟨by rw [hrun, h2], by simp [invoked, hinv, callsOf], by simp [panics, hpan]⟩
        · refine Or.inr ⟨r, [Event.write line, Event.crud crud st.sub,
            Event.write t] ++ pre, c, sub, t2, ?_, ?_, ?_, ?_⟩
          · rw [hrun, h2]
          · simp [hnew]
          · simp [panics, hpre]
          · simpa [invoked, callsOf] using hpfx

theorem needsNewline_println (r : String) : needsNewline (r ++ "\n") = false := by
  simp [needsNewline]

/-- The line `logger.Println(r)` writes. -/
theorem Output_println (l : Logger) (r : String) :
    l.Output (r ++ "\n") = l.pfx ++ l.stamp ++ r ++ "\n" := by
  simp [Logger.Output, needsNewline_println, String.append_assoc]


/-- What one `route` call does, in terms of its events: every applier returned;
or one panicked with nil, which ends the call with exit code 0 and no further
line; or one panicked with a non-nil value, which ends the call with exit code
1 and the line for that value. -/
theorem route_spec {H P D V R : Type} (cb : Collab H P D V R) (a : agent H) (crud : Int)
    (req : Request P D V R) (cm : Int) :
    ∃ new : List (Event P D V R),
      (agent.route cb a crud req cm).events = Event.route crud req cm :: new ∧
      (agent.route cb a crud req cm).a.con.Logbuf = a.con.Logbuf ++ emitted new ∧
      (agent.route cb a crud req cm).a.con.Logger = a.con.Logger ∧
      (routed new = [] ∧ Event.listen ∉ new) ∧
      (((agent.route cb a crud req cm).exit = 0 ∧
          invoked new = applierCalls crud req.Model ∧ panics new = []) ∨
       (∃ pre c sub t, (agent.route cb a crud req cm).exit = 0 ∧
          new = pre ++ [Event.crud c sub, Event.write t, Event.panic none] ∧
          panics pre = [] ∧ invoked pre ++ [(c, sub)] <+: applierCalls crud req.Model) ∨
       (∃ r pre c sub t, (agent.route cb a crud req cm).exit = 1 ∧
          new = pre ++ [Event.crud c sub, Event.write t, Event.panic (some r),
            Event.write (a.con.Logger.Output (r ++ "\n"))] ∧
          panics pre = [] ∧ invoked pre ++ [(c, sub)] <+: applierCalls crud req.Model)) := by
  obtain ⟨new, hev, hbuf, hlog, ⟨hrt, hli⟩, hcase⟩ :=
    runStages_spec crud
      (stagesOf cb crud (GetPtn req.Model) (GetVhosts req.Model) (GetRouter req.Model))
      ({ con := a.con, events := [Event.route crud req cm] } : Pass H P D V R)
  rw [callsOf_stagesOf] at hcase
  have hroute : agent.route cb a crud req cm
      = (match recover (runStages crud
          (stagesOf cb crud (GetPtn req.Model) (GetVhosts req.Model) (GetRouter req.Model))
          ({ con := a.con, events := [Event.route crud req cm] } : Pass H P D V R)).2 with
         | some r =>
           { a := { con := ((runStages crud
               (stagesOf cb crud (GetPtn req.Model) (GetVhosts req.Model) (GetRouter req.Model))
               ({ con := a.con, events := [Event.route crud req cm] } : Pass H P D V R)).1.Println r).con },
             exit := 1,
             events := ((runStages crud
               (stagesOf cb crud (GetPtn req.Model) (GetVhosts req.Model) (GetRouter req.Model))
               ({ con := a.con, events := [Event.route crud req cm] } : Pass H P D V R)).1.Println r).events }
         | none =>
           { a := { con := (runStages crud
               (stagesOf cb crud (GetPtn req.Model) (GetVhosts req.Model) (GetRouter req.Model))
               ({ con := a.con, events := [Event.route crud req cm] } : Pass H P D V R)).1.con },
             exit := 0,
             events := (runStages crud
               (stagesOf cb crud (GetPtn req.Model) (GetVhosts req.Model) (GetRouter req.Model))
               ({ con := a.con, events := [Event.route crud req cm] } : Pass H P D V R)).1.events }) := by
    unfold agent.route
    simp only [routeBody_eq_runStages]
  generalize runStages crud
      (stagesOf cb crud (GetPtn req.Model) (GetVhosts req.Model) (GetRouter req.Model))
      ({ con := a.con, events := [Event.route crud req cm] } : Pass H P D V R) = x
    at hev hbuf hlog hcase hroute
  rcases hcase with ⟨h2, hinv, hpan⟩ | ⟨r, pre, c, sub, t, h2, hnew, hpre, hpfx⟩
  · rw [h2] at hroute
    refine ⟨new, ?_, ?_, ?_, ⟨hrt, hli⟩, Or.inl ⟨?_, hinv, hpan⟩⟩
    · rw [hroute]; simpa [recover] using hev
    · rw [hroute]; exact hbuf
    · rw [hroute]; exact hlog
    · rw [hroute]; rfl
  · rw [h2] at hroute
    cases r with
    | none =>
      refine ⟨new, ?_, ?_, ?_, ⟨hrt, hli⟩, Or.inr (Or.inl ⟨pre, c, sub, t, ?_, hnew, hpre, hpfx⟩)⟩
      · rw [hroute]; simpa [recover] using hev
      · rw [hroute]; exact hbuf
      · rw [hroute]; exact hlog
      · rw [hroute]; rfl
    | some r =>
      refine ⟨new ++ [Event.write (a.con.Logger.Output (r ++ "\n"))], ?_, ?_, ?_, ?_,
        Or.inr (Or.inr ⟨r, pre, c, sub, t, ?_, ?_, hpre, hpfx⟩)⟩
      · rw [hroute]; simp [recover, Pass.Println, Pass.Print, hev, hlog]
      · rw [hroute]
        simp [recover, Pass.Println, Pass.Print, hbuf, hlog, emitted, String.append_assoc]
      · rw [hroute]; simpa [recover, Pass.Println, Pass.Print] using hlog
      · simp [routed, hrt, hli]
      · rw [hroute]; rfl
      · simp [hnew]

/-! ## Consequences of `route_spec` -/

/-- The invocations of one `route` call form an initial part of the present
appliers; when the call returns 0 all of them were invoked. -/
theorem route_invoked {H P D V R : Type} (cb : Collab H P D V R) (a : agent H) (crud : Int)
    (req : Request P D V R) (cm : Int) :
    invoked (agent.route cb a crud req cm).events <+: applierCalls crud req.Model ∧
    (panics (agent.route cb a crud req cm).events = [] →
      invoked (agent.route cb a crud req cm).events = applierCalls crud req.Model) ∧
    (panics (agent.route cb a crud req cm).events ≠ [] →
      invoked (agent.route cb a crud req cm).events ≠ []) := by
  obtain ⟨new, hev, -, -, -, hcase⟩ := route_spec cb a crud req cm
  rcases hcase with ⟨-, hinv, hpan⟩ | ⟨pre, c, sub, t, -, hnew, hpre, hpfx⟩ |
    ⟨r, pre, c, sub, t, -, hnew, hpre, hpfx⟩
  · rw [hev]
    simp [invoked, panics, hinv, hpan]
  · rw [hev, hnew]
    simp [invoked, panics, hpre]
    simpa using hpfx
  · rw [hev, hnew]
    simp [invoked, panics, hpre]
    simpa using hpfx

/-- A nonempty initial part of a one-element list is that list. -/
theorem prefix_singleton {α : Type} (l : List α) (x : α) (h : l <+: [x]) (hne : l ≠ []) :
    l = [x] := by
  obtain ⟨t, ht⟩ := h
  cases l with
  | nil => exact absurd rfl hne
  | cons y ys =>
    simp at ht
    obtain ⟨rfl, hys, -⟩ := ht
    rw [hys]

theorem route_invoked_single {H P D V R : Type} (cb : Collab H P D V R) (a : agent H)
    (crud : Int) (req : Request P D V R) (cm : Int) (x : Int × Sub P D V R)
    (h : applierCalls crud req.Model = [x]) :
    invoked (agent.route cb a crud req cm).events = [x] := by
  obtain ⟨hpfx, hall, hne⟩ := route_invoked cb a crud req cm
  by_cases hp : panics (agent.route cb a crud req cm).events = []
  · rw [hall hp, h]
  · exact prefix_singleton _ _ (h ▸ hpfx) (hne hp)

/-! ## The claims -/

/-- C1 (as amended): for every operation code, a request whose only sub-record
is the pattern, the virtual-hosts or the router record makes `route` invoke
that domain's applier exactly once, with that operation and sub-record, and no
other applier; a request whose only sub-record is the driver invokes no
applier. -/
theorem route_single_domain {H P D V R : Type} (cb : Collab H P D V R) (a : agent H)
    (crud cm : Int) :
    (∀ p : P, invoked (agent.route cb a crud ⟨some ⟨some p, none, none, none⟩⟩ cm).events
        = [(crud, Sub.ptn p)]) ∧
    (∀ v : V, invoked (agent.route cb a crud ⟨some ⟨none, none, some v, none⟩⟩ cm).events
        = [(crud, Sub.vhosts v)]) ∧
    (∀ r : R, invoked (agent.route cb a crud ⟨some ⟨none, none, none, some r⟩⟩ cm).events
        = [(crud, Sub.router r)]) ∧
    (∀ d : D, invoked (agent.route cb a crud ⟨some ⟨none, some d, none, none⟩⟩ cm).events
        = []) := by
  refine ⟨fun p => ?_, fun v => ?_, fun r => ?_, fun d => ?_⟩
  · exact route_invoked_single cb a crud _ cm _ rfl
  · exact route_invoked_single cb a crud _ cm _ rfl
  · exact route_invoked_single cb a crud _ cm _ rfl
  · have h := (route_invoked cb a crud ⟨some ⟨none, some d, none, none⟩⟩ cm).1
    simpa [applierCalls, GetPtn, GetVhosts, GetRouter] using h

/-- C1 (as stated) fails for the driver: with the driver as the only sub-record
and operation 1, `route` returns 0 having invoked no applier, while the claim
asks for one invocation with the driver record. -/
theorem route_driver_only_invokes_nothing :
    invoked (agent.route cbOk a0 1 ⟨some ⟨none, some 2, none, none⟩⟩ 0).events = [] ∧
    specCalls 1 (some (⟨none, some 2, none, none⟩ : Model Nat Nat Nat Nat))
      = [(1, Sub.dvr 2)] ∧
    invoked (agent.route cbOk a0 1 ⟨some ⟨none, some 2, none, none⟩⟩ 0).events
      ≠ specCalls 1 (some ⟨none, some 2, none, none⟩) ∧
    (agent.route cbOk a0 1 ⟨some ⟨none, some 2, none, none⟩⟩ 0).exit = 0 := by
  decide

/-- C2 (as amended): when no applier panics, the invocations made by `route`
are the present sub-records of the domains pattern, virtual-hosts and router,
in that order, each once and with the given operation; a driver record adds no
invocation. -/
theorem route_invokes_present_in_order {H P D V R : Type} (cb : Collab H P D V R)
    (a : agent H) (crud : Int) (req : Request P D V R) (cm : Int)
    (h : panics (agent.route cb a crud req cm).events = []) :
    invoked (agent.route cb a crud req cm).events
      = (match GetPtn req.Model with | some p => [(crud, Sub.ptn p)] | none => []) ++
        (match GetVhosts req.Model with | some v => [(crud, Sub.vhosts v)] | none => []) ++
        (match GetRouter req.Model with | some r => [(crud, Sub.router r)] | none => []) :=
  (route_invoked cb a crud req cm).2.1 h

/-- Concrete instance of C2 (as amended): all four sub-records set, operation 2,
appliers that return. -/
theorem route_invokes_present_in_order_witness :
    panics (agent.route cbOk a0 2 ⟨some ⟨some 1, some 2, some 3, some 4⟩⟩ 0).events = [] ∧
    invoked (agent.route cbOk a0 2 ⟨some ⟨some 1, some 2, some 3, some 4⟩⟩ 0).events
      = [(2, Sub.ptn 1), (2, Sub.vhosts 3), (2, Sub.router 4)] :=
  ⟨by decide, route_invokes_present_in_order cbOk a0 2 _ 0 (by decide)⟩

/-- C2 (as stated) fails when the driver record is among the present ones: with
pattern and driver set and no panic, only the pattern applier is invoked, not
the two invocations of the declared order. -/
theorem route_skips_driver :
    panics (agent.route cbOk a0 2 ⟨some ⟨some 1, some 2, none, none⟩⟩ 0).events = [] ∧
    invoked (agent.route cbOk a0 2 ⟨some ⟨some 1, some 2, none, none⟩⟩ 0).events
      = [(2, Sub.ptn 1)] ∧
    specCalls 2 (some (⟨some 1, some 2, none, none⟩ : Model Nat Nat Nat Nat))
      = [(2, Sub.ptn 1), (2, Sub.dvr 2)] ∧
    invoked (agent.route cbOk a0 2 ⟨some ⟨some 1, some 2, none, none⟩⟩ 0).events
      ≠ specCalls 2 (some ⟨some 1, some 2, none, none⟩) := by
  decide

/-- C3: for every operation code, a request none of whose four sub-records is
set (a nil model included) makes `route` return 0, invoke no applier and write
nothing to the log buffer; the agent is left as it was. -/
theorem route_noop {H P D V R : Type} (cb : Collab H P D V R) (a : agent H) (crud : Int)
    (req : Request P D V R) (cm : Int)
    (hp : GetPtn req.Model = none) (hd : GetDvr req.Model = none)
    (hv : GetVhosts req.Model = none) (hr : GetRouter req.Model = none) :
    (agent.route cb a crud req cm).exit = 0 ∧
    invoked (agent.route cb a crud req cm).events = [] ∧
    emitted (agent.route cb a crud req cm).events = "" ∧
    (agent.route cb a crud req cm).a.con.Logbuf = a.con.Logbuf ∧
    (agent.route cb a crud req cm).a = a ∧
    (agent.route cb a crud req cm).events = [Event.route crud req cm] := by
  have h : agent.route cb a crud req cm
      = { a := a, exit := 0, events := [Event.route crud req cm] } := by
    simp [agent.route, routeBody, andThen, recover, hp, hd, hv, hr]
  rw [h]
  exact ⟨rfl, rfl, rfl, rfl, rfl, rfl⟩

/-- Concrete instances of C3: a nil model, and a model with no sub-record. -/
theorem route_noop_witness :
    ((agent.route cbPanic a0 3 ⟨none⟩ 0).exit = 0 ∧
     invoked (agent.route cbPanic a0 3 ⟨none⟩ 0).events = [] ∧
     emitted (agent.route cbPanic a0 3 ⟨none⟩ 0).events = "" ∧
     (agent.route cbPanic a0 3 ⟨none⟩ 0).a.con.Logbuf = a0.con.Logbuf ∧
     (agent.route cbPanic a0 3 ⟨none⟩ 0).a = a0 ∧
     (agent.route cbPanic a0 3 ⟨none⟩ 0).events = [Event.route 3 ⟨none⟩ 0]) ∧
    (agent.route cbPanic a0 3 ⟨some ⟨none, none, none, none⟩⟩ 0).exit = 0 :=
  ⟨route_noop cbPanic a0 3 ⟨none⟩ 0 rfl rfl rfl rfl,
   (route_noop cbPanic a0 3 ⟨some ⟨none, none, none, none⟩⟩ 0 rfl rfl rfl rfl).1⟩

/-- The exit code of `route` against the panics of the call: no panic and exit
code 0; or one panic with nil and exit code 0; or one panic with a non-nil
value, exit code 1, and a buffer that ends with the line `Println` wrote for
that value. -/
theorem route_exit {H P D V R : Type} (cb : Collab H P D V R) (a : agent H) (crud : Int)
    (req : Request P D V R) (cm : Int) :
    ((agent.route cb a crud req cm).exit = 0 ∧
      panics (agent.route cb a crud req cm).events = []) ∨
    ((agent.route cb a crud req cm).exit = 0 ∧
      panics (agent.route cb a crud req cm).events = [none]) ∨
    (∃ r mid, (agent.route cb a crud req cm).exit = 1 ∧
      panics (agent.route cb a crud req cm).events = [some r] ∧
      (agent.route cb a crud req cm).a.con.Logbuf
        = a.con.Logbuf ++ mid ++ (a.con.Logger.pfx ++ a.con.Logger.stamp ++ r ++ "\n")) := by
  obtain ⟨new, hev, hbuf, -, -, hcase⟩ := route_spec cb a crud req cm
  rcases hcase with ⟨hx, -, hpan⟩ | ⟨pre, c, sub, t, hx, hnew, hpre, -⟩ |
    ⟨r, pre, c, sub, t, hx, hnew, hpre, -⟩
  · exact Or.inl ⟨hx, by rw [hev]; simpa [panics] using hpan⟩
  · exact Or.inr (Or.inl ⟨hx, by rw [hev, hnew]; simp [panics, hpre]⟩)
  · refine Or.inr (Or.inr ⟨r, emitted pre ++ t, hx, ?_, ?_⟩)
    · rw [hev, hnew]; simp [panics, hpre]
    · rw [hbuf, hnew, Output_println]
      simp [emitted, String.append_assoc]

/-- C4 (as amended): `route` returns 1 exactly when an invoked applier panicked
with a non-nil value, and 0 when no applier panicked; when an applier panicked
with the non-nil value `r`, the line with the text of `r` is the last thing
appended to the log buffer, and `Add`, `Update` and `Delete` return a
`Response` with `Exit = 1`; these three methods return a nil error in every
case. -/
theorem route_returns_one_iff_panic {H P D V R : Type} (cb : Collab H P D V R) (env : Env)
    (w : World H P D V R) (crud : Int) (req : Request P D V R) (cm : Int) :
    ((agent.route cb w.a crud req cm).exit = 1 ↔
      ∃ r, some r ∈ panics (agent.route cb w.a crud req cm).events) ∧
    (panics (agent.route cb w.a crud req cm).events = [] →
      (agent.route cb w.a crud req cm).exit = 0) ∧
    (∀ r, some r ∈ panics (agent.route cb w.a crud req cm).events →
      (agent.route cb w.a crud req cm).exit = 1 ∧
      ∃ mid, (agent.route cb w.a crud req cm).a.con.Logbuf
        = w.a.con.Logbuf ++ mid ++ (w.a.con.Logger.pfx ++ w.a.con.Logger.stamp ++ r ++ "\n")) ∧
    ((∃ r, some r ∈ panics (agent.route cb w.a env.ADD req cb.CONFIG).events) →
      (Add cb env w req).2.1.Exit = 1) ∧
    ((∃ r, some r ∈ panics (agent.route cb w.a env.UPDATE req cb.CONFIG).events) →
      (Update cb env w req).2.1.Exit = 1) ∧
    ((∃ r, some r ∈ panics (agent.route cb w.a env.DELETE req cb.CONFIG).events) →
      (Delete cb env w req).2.1.Exit = 1) ∧
    (Add cb env w req).2.2 = none ∧
    (Update cb env w req).2.2 = none ∧
    (Delete cb env w req).2.2 = none := by
  have hiff : ∀ c m : Int, ((agent.route cb w.a c req m).exit = 1 ↔
      ∃ r, some r ∈ panics (agent.route cb w.a c req m).events) := by
    intro c m
    rcases route_exit cb w.a c req m with ⟨hx, hp⟩ | ⟨hx, hp⟩ | ⟨r, mid, hx, hp, -⟩
    · simp [hx, hp]
    · simp [hx, hp]
    · simp [hx, hp]
  have hrpc : ∀ c : Int, (∃ r, some r ∈ panics (agent.route cb w.a c req cb.CONFIG).events) →
      (rpcCall cb w c req).2.1.Exit = 1 := by
    intro c hc
    have hx := (hiff c cb.CONFIG).2 hc
    simpa [rpcCall, World.route] using hx
  refine ⟨hiff crud cm, ?_, ?_, hrpc env.ADD, hrpc env.UPDATE, hrpc env.DELETE, rfl, rfl, rfl⟩
  · intro h
    rcases route_exit cb w.a crud req cm with ⟨hx, -⟩ | ⟨hx, -⟩ | ⟨r, mid, -, hp, -⟩
    · exact hx
    · exact hx
    · rw [hp] at h; exact absurd h (by simp)
  · intro r hr
    rcases route_exit cb w.a crud req cm with ⟨-, hp⟩ | ⟨-, hp⟩ | ⟨r2, mid, hx, hp, hb⟩
    · rw [hp] at hr; exact absurd hr (by simp)
    · rw [hp] at hr; exact absurd hr (by simp)
    · rw [hp] at hr
      have : r = r2 := by simpa using hr
      subst this
      exact ⟨hx, mid, hb⟩

/-- Concrete instance of C4 (as amended): the virtual-hosts applier panics with
"boom"; `route` returns 1, the buffer ends with the line for "boom", and `Add`
returns `Exit = 1` with a nil error; with appliers that return, `route`
returns 0. -/
theorem route_returns_one_iff_panic_witness :
    ((agent.route cbPanic w0.a 0 ⟨some ⟨some 1, none, some 3, some 4⟩⟩ 0).exit = 1 ↔
      ∃ r, some r ∈
        panics (agent.route cbPanic w0.a 0 ⟨some ⟨some 1, none, some 3, some 4⟩⟩ 0).events) ∧
    (agent.route cbPanic w0.a 0 ⟨some ⟨some 1, none, some 3, some 4⟩⟩ 0).exit = 1 ∧
    panics (agent.route cbPanic w0.a 0 ⟨some ⟨some 1, none, some 3, some 4⟩⟩ 0).events
      = [some "boom"] ∧
    (agent.route cbPanic w0.a 0 ⟨some ⟨some 1, none, some 3, some 4⟩⟩ 0).a.con.Logbuf
      = "[A] T Routing to PTN module...\nptn ok\n[A] T Routing to VHOSTS module...\n" ++
        "[A] T boom\n" ∧
    (Add cbPanic ⟨0, 1, 2, 1⟩ w0 ⟨some ⟨some 1, none, some 3, some 4⟩⟩).2.1.Exit = 1 ∧
    (Add cbPanic ⟨0, 1, 2, 1⟩ w0 ⟨some ⟨some 1, none, some 3, some 4⟩⟩).2.2 = none ∧
    (agent.route cbOk w0.a 0 ⟨some ⟨some 1, none, some 3, some 4⟩⟩ 0).exit = 0 :=
  ⟨(route_returns_one_iff_panic cbPanic ⟨0, 1, 2, 1⟩ w0 0
      ⟨some ⟨some 1, none, some 3, some 4⟩⟩ 0).1,
   by decide, by decide, by decide, by decide, by decide, by decide⟩

/-- C4 (as stated) fails for a panic with nil: the virtual-hosts applier is
invoked and panics with nil, `recover()` yields nil, and `route` returns 0
without a line for the panic, so that `Add` answers `Exit = 0`; the router
applier is not invoked. -/
theorem route_nil_panic_returns_zero :
    panics (agent.route cbNil w0.a 0 ⟨some ⟨some 1, none, some 3, some 4⟩⟩ 0).events
      = [none] ∧
    invoked (agent.route cbNil w0.a 0 ⟨some ⟨some 1, none, some 3, some 4⟩⟩ 0).events
      = [(0, Sub.ptn 1), (0, Sub.vhosts 3)] ∧
    (agent.route cbNil w0.a 0 ⟨some ⟨some 1, none, some 3, some 4⟩⟩ 0).exit = 0 ∧
    (agent.route cbNil w0.a 0 ⟨some ⟨some 1, none, some 3, some 4⟩⟩ 0).a.con.Logbuf
      = "[A] T Routing to PTN module...\nptn ok\n[A] T Routing to VHOSTS module...\n" ∧
    (Add cbNil ⟨0, 1, 2, 1⟩ w0 ⟨some ⟨some 1, none, some 3, some 4⟩⟩).2.1.Exit = 0 := by
  decide

/-- C10: within one `route` call the invocations are an initial part of the
present appliers in the order pattern, virtual-hosts, router; when no applier
panics every present applier is invoked, whatever the appliers logged or did;
when an applier panics, with whatever value, every applier invoked before it
returned normally, it is the last applier invoked, and after its panic the
call holds no further invocation. -/
theorem route_only_panic_short_circuits {H P D V R : Type} (cb : Collab H P D V R)
    (a : agent H) (crud : Int) (req : Request P D V R) (cm : Int) :
    invoked (agent.route cb a crud req cm).events <+: applierCalls crud req.Model ∧
    (panics (agent.route cb a crud req cm).events = [] →
      invoked (agent.route cb a crud req cm).events = applierCalls crud req.Model) ∧
    (∀ r, r ∈ panics (agent.route cb a crud req cm).events →
      ∃ pre c sub t post,
        (agent.route cb a crud req cm).events
          = pre ++ [Event.crud c sub, Event.write t, Event.panic r] ++ post ∧
        panics pre = [] ∧ invoked post = [] ∧ panics post = [] ∧
        invoked (agent.route cb a crud req cm).events = invoked pre ++ [(c, sub)]) := by
  obtain ⟨new, hev, -, -, -, hcase⟩ := route_spec cb a crud req cm
  refine ⟨(route_invoked cb a crud req cm).1, (route_invoked cb a crud req cm).2.1, ?_⟩
  intro r hr
  rcases hcase with ⟨-, -, hpan⟩ | ⟨pre, c, sub, t, -, hnew, hpre, -⟩ |
    ⟨r2, pre, c, sub, t, -, hnew, hpre, -⟩
  · rw [hev] at hr
    simp [panics, hpan] at hr
  · have hr2 : r = none := by
      rw [hev, hnew] at hr
      simpa [panics, hpre] using hr
    subst hr2
    refine ⟨Event.route crud req cm :: pre, c, sub, t, [], ?_, ?_, rfl, rfl, ?_⟩
    · rw [hev, hnew]; simp
    · simpa [panics] using hpre
    · rw [hev, hnew]; simp [invoked]
  · have hr2 : r = some r2 := by
      rw [hev, hnew] at hr
      simpa [panics, hpre] using hr
    subst hr2
    refine ⟨Event.route crud req cm :: pre, c, sub, t,
      [Event.write (a.con.Logger.Output (r2 ++ "\n"))], ?_, ?_, rfl, rfl, ?_⟩
    · rw [hev, hnew]; simp
    · simpa [panics] using hpre
    · rw [hev, hnew]; simp [invoked]

/-- Concrete instance of C10: with pattern, virtual-hosts and router present
and a virtual-hosts applier that panics, with "boom" or with nil, the pattern
and virtual-hosts appliers are invoked and the router applier is not; with
appliers that return, all three are invoked. -/
theorem route_only_panic_short_circuits_witness :
    invoked (agent.route cbPanic a0 0 ⟨some ⟨some 1, none, some 3, some 4⟩⟩ 0).events
      <+: applierCalls 0 (some ⟨some 1, none, some 3, some 4⟩) ∧
    invoked (agent.route cbPanic a0 0 ⟨some ⟨some 1, none, some 3, some 4⟩⟩ 0).events
      = [(0, Sub.ptn 1), (0, Sub.vhosts 3)] ∧
    invoked (agent.route cbNil a0 0 ⟨some ⟨some 1, none, some 3, some 4⟩⟩ 0).events
      = [(0, Sub.ptn 1), (0, Sub.vhosts 3)] ∧
    panics (agent.route cbOk a0 0 ⟨some ⟨some 1, none, some 3, some 4⟩⟩ 0).events = [] ∧
    invoked (agent.route cbOk a0 0 ⟨some ⟨some 1, none, some 3, some 4⟩⟩ 0).events
      = [(0, Sub.ptn 1), (0, Sub.vhosts 3), (0, Sub.router 4)] :=
  ⟨(route_only_panic_short_circuits cbPanic a0 0 ⟨some ⟨some 1, none, some 3, some 4⟩⟩ 0).1,
   by decide, by decide, by decide, by decide⟩

/-! ## Batch mode -/

theorem route_routed {H P D V R : Type} (cb : Collab H P D V R) (a : agent H) (crud : Int)
    (req : Request P D V R) (cm : Int) :
    routed (agent.route cb a crud req cm).events = [(crud, req)] := by
  obtain ⟨new, hev, -, -, ⟨hrt, -⟩, -⟩ := route_spec cb a crud req cm
  rw [hev]; simp [routed, hrt]

theorem batchStep_routed {H P D V R : Type} (cb : Collab H P D V R) (env : Env)
    (target ope : String) (cm : Int) (w : World H P D V R) (v : State P D V R) :
    routed (batchStep cb env target ope cm w v).trace
      = routed w.trace ++
        (if v.Router = target then [(opeCode env ope, ⟨some v.Model⟩)] else []) := by
  unfold batchStep
  by_cases h : v.Router = target
  · simp [h, World.route, World.stdPrint, route_routed]
  · simp [h, World.stdPrint]

theorem batchLoop_routed {H P D V R : Type} (cb : Collab H P D V R) (env : Env)
    (target ope : String) (cm : Int) (states : List (State P D V R)) :
    ∀ w : World H P D V R,
      routed (batchLoop cb env target ope cm w states).trace
        = routed w.trace ++
          (states.filter fun v => decide (v.Router = target)).map
            fun v => (opeCode env ope, ⟨some v.Model⟩) := by
  induction states with
  | nil => intro w; simp [batchLoop]
  | cons v vs ih =>
    intro w
    have hstep : batchLoop cb env target ope cm w (v :: vs)
        = batchLoop cb env target ope cm (batchStep cb env target ope cm w v) vs := rfl
    rw [hstep, ih, batchStep_routed]
    by_cases h : v.Router = target <;> simp [h, List.filter]

theorem batchLoop_append {H P D V R : Type} (cb : Collab H P D V R) (env : Env)
    (target ope : String) (cm : Int) (w : World H P D V R) (xs ys : List (State P D V R)) :
    batchLoop cb env target ope cm w (xs ++ ys)
      = batchLoop cb env target ope cm (batchLoop cb env target ope cm w xs) ys := by
  simp [batchLoop, List.foldl_append]

/-- C5: in batch mode the models passed to `route` are exactly the models of
the records whose router equals the local host, in file order, each once. -/
theorem batch_routes_matching_records {H P D V R : Type} (cb : Collab H P D V R) (env : Env)
    (HOSTNAME : String) (flags : Flags) (stamp : String) (host : H)
    (h : flagString "" flags.state ≠ "") :
    (routed (main cb env HOSTNAME flags stamp host).trace).map (fun c => c.2.Model)
      = ((readStates cb (flagString "" flags.state) (flagString "" flags.roster)).filter
          fun v => decide (v.Router = HOSTNAME)).map fun v => some v.Model := by
  simp [main, h, World.WriteLog, World.stdPrint, batchLoop_routed, World.Print, routed,
    Function.comp_def]

/-- Concrete instance of C5: records for A, B and A with local host A; the two
records for A are routed, in file order. -/
theorem batch_routes_matching_records_witness :
    flagString "" (some "state.json") ≠ "" ∧
    (routed (main cbOk ⟨0, 1, 2, 1⟩ "A" ⟨some "add", some "state.json", none, none⟩
        "T " ()).trace).map (fun c => c.2.Model)
      = ((readStates cbOk (flagString "" (some "state.json")) (flagString "" none)).filter
          fun v => decide (v.Router = "A")).map (fun v => some v.Model) ∧
    (routed (main cbOk ⟨0, 1, 2, 1⟩ "A" ⟨some "add", some "state.json", none, none⟩
        "T " ()).trace).map (fun c => c.2.Model)
      = [some ⟨none, none, some 3, none⟩, some ⟨none, none, none, some 4⟩] :=
  ⟨by decide, batch_routes_matching_records cbOk ⟨0, 1, 2, 1⟩ "A"
    ⟨some "add", some "state.json", none, none⟩ "T " () (by decide), by decide⟩

/-- The `switch *ope` of batch mode: without the `ope` flag the text is "ADD",
no case matches, and every `route` call of the batch gets the zero value 0 as
operation code; the lower-case texts select `ADD`, `UPDATE`, `DELETE`. -/
theorem batch_default_ope_is_zero {H P D V R : Type} (cb : Collab H P D V R) (env : Env)
    (target : String) (cm : Int) (w : World H P D V R) (states : List (State P D V R)) :
    opeCode env (flagString "ADD" none) = 0 ∧
    routed (batchLoop cb env target (flagString "ADD" none) cm w states).trace
      = routed w.trace ++
        (states.filter fun v => decide (v.Router = target)).map
          (fun v => ((0 : Int), ⟨some v.Model⟩)) ∧
    opeCode env (flagString "ADD" (some "add")) = env.ADD ∧
    opeCode env (flagString "ADD" (some "update")) = env.UPDATE ∧
    opeCode env (flagString "ADD" (some "delete")) = env.DELETE := by
  refine ⟨rfl, ?_, ?_, ?_, ?_⟩
  · rw [batchLoop_routed]; rfl
  · simp [opeCode, flagString]
  · simp [opeCode, flagString]
  · simp [opeCode, flagString]

/-- With the `ope` flag absent the operation code passed to `route` is `ADD`
exactly when the constant `ADD` is 0. -/
theorem default_ope_is_add_iff (env : Env) :
    opeCode env (flagString "ADD" none) = env.ADD ↔ env.ADD = 0 := by
  have h : opeCode env (flagString "ADD" none) = 0 := rfl
  rw [h]
  exact eq_comm

/-- C9: in batch mode the number of `route` calls is the number of matching
records, whatever the appliers do; and wherever a record stands in the file,
the matching records after it are all routed, also when routing it ended in a
panic. -/
theorem batch_continues_after_failure {H P D V R : Type} (cb : Collab H P D V R) (env : Env)
    (target ope : String) (cm : Int) (w : World H P D V R) (states : List (State P D V R)) :
    (routed (batchLoop cb env target ope cm w states).trace).length
      = (routed w.trace).length +
        (states.filter fun v => decide (v.Router = target)).length ∧
    (∀ pre v post, states = pre ++ v :: post →
      routed (batchLoop cb env target ope cm w states).trace
        = routed (batchLoop cb env target ope cm w (pre ++ [v])).trace ++
          (post.filter fun v => decide (v.Router = target)).map
            fun v => (opeCode env ope, ⟨some v.Model⟩)) := by
  refine ⟨by rw [batchLoop_routed]; simp, ?_⟩
  intro pre v post hs
  have : pre ++ v :: post = (pre ++ [v]) ++ post := by simp
  rw [hs, this, batchLoop_append, batchLoop_routed cb env target ope cm post]

/-- Concrete instance of C9: the virtual-hosts applier panics on the first
record for A, `route` returns 1 there, and the later record for A is still
routed. -/
theorem batch_continues_after_failure_witness :
    (agent.route cbPanic a0 0 ⟨some ⟨none, none, some 3, none⟩⟩ 0).exit = 1 ∧
    routed (batchLoop cbPanic ⟨0, 1, 2, 1⟩ "A" "add" 0 w0
        (cbPanic.ReadState "state.json" none)).trace
      = [(0, ⟨some ⟨none, none, some 3, none⟩⟩), (0, ⟨some ⟨none, none, none, some 4⟩⟩)] ∧
    (routed (batchLoop cbPanic ⟨0, 1, 2, 1⟩ "A" "add" 0 w0
        (cbPanic.ReadState "state.json" none)).trace).length
      = 0 + ((cbPanic.ReadState "state.json" none).filter
          fun v => decide (v.Router = "A")).length :=
  ⟨by decide, by decide,
   (batch_continues_after_failure cbPanic ⟨0, 1, 2, 1⟩ "A" "add" 0
      w0 (cbPanic.ReadState "state.json" none)).1⟩

/-! ## Server mode -/

theorem route_no_listen {H P D V R : Type} (cb : Collab H P D V R) (a : agent H) (crud : Int)
    (req : Request P D V R) (cm : Int) :
    Event.listen ∉ (agent.route cb a crud req cm).events := by
  obtain ⟨new, hev, -, -, ⟨-, hli⟩, -⟩ := route_spec cb a crud req cm
  rw [hev]; simpa using hli

theorem main_server {H P D V R : Type} (cb : Collab H P D V R) (env : Env)
    (HOSTNAME : String) (flags : Flags) (stamp : String) (host : H)
    (h : flagString "" flags.state = "") :
    main cb env HOSTNAME flags stamp host
      = serverStartup cb env (configModeOf cb (flagString "config" flags.mode))
          (initWorld HOSTNAME stamp host) := by
  simp [main, h]

/-- C7: in server mode, when `GetMode` returns `RESTART` the startup calls
`route` exactly once, with `ADD` and a request wrapping the stored model, and
opens the listener only afterwards; with any other mode it opens the listener
without a `route` call or an applier invocation. -/
theorem restart_replays_stored_model {H P D V R : Type} (cb : Collab H P D V R) (env : Env)
    (HOSTNAME : String) (flags : Flags) (stamp : String) (host : H)
    (h : flagString "" flags.state = "") :
    (cb.GetMode cb.RegisterHost = env.RESTART →
      ∃ mid, (main cb env HOSTNAME flags stamp host).trace = mid ++ [Event.listen] ∧
        Event.listen ∉ mid ∧
        routed mid = [(env.ADD, ⟨some (cb.GetState cb.RegisterHost)⟩)]) ∧
    (cb.GetMode cb.RegisterHost ≠ env.RESTART →
      ∃ mid, (main cb env HOSTNAME flags stamp host).trace = mid ++ [Event.listen] ∧
        Event.listen ∉ mid ∧ routed mid = [] ∧ invoked mid = []) := by
  rw [main_server cb env HOSTNAME flags stamp host h]
  constructor
  · intro hm
    refine ⟨_, rfl, ?_, ?_⟩
    · simp [hm, World.Print, World.route, initWorld, route_no_listen]
    · simp [hm, World.Print, World.route, initWorld, route_routed, routed]
  · intro hm
    refine ⟨_, rfl, ?_, ?_, ?_⟩
    · simp [hm, World.Print, initWorld]
    · simp [hm, World.Print, initWorld, routed]
    · simp [hm, World.Print, initWorld, invoked]

/-- Concrete instance of C7: a store that answers RESTART (1) with the model
whose router record is 7, and the same store read with RESTART = 5. -/
theorem restart_replays_stored_model_witness :
    flagString "" none = "" ∧
    ((cbOk.GetMode cbOk.RegisterHost = 0 →
      ∃ mid, (main cbOk ⟨1, 2, 3, 0⟩ "A" ⟨none, none, none, none⟩ "T " ()).trace
          = mid ++ [Event.listen] ∧
        Event.listen ∉ mid ∧
        routed mid = [(1, ⟨some (cbOk.GetState cbOk.RegisterHost)⟩)]) ∧
     (cbOk.GetMode cbOk.RegisterHost ≠ 0 →
      ∃ mid, (main cbOk ⟨1, 2, 3, 0⟩ "A" ⟨none, none, none, none⟩ "T " ()).trace
          = mid ++ [Event.listen] ∧
        Event.listen ∉ mid ∧ routed mid = [] ∧ invoked mid = [])) ∧
    routed (main cbOk ⟨1, 2, 3, 0⟩ "A" ⟨none, none, none, none⟩ "T " ()).trace
      = [(1, ⟨some ⟨none, none, none, some 7⟩⟩)] ∧
    routed (main cbOk ⟨1, 2, 3, 5⟩ "A" ⟨none, none, none, none⟩ "T " ()).trace = [] :=
  ⟨rfl, restart_replays_stored_model cbOk ⟨1, 2, 3, 0⟩ "A" ⟨none, none, none, none⟩ "T " () rfl,
   by decide, by decide⟩

/-! ## The RPC surface -/

theorem route_logbuf {H P D V R : Type} (cb : Collab H P D V R) (a : agent H) (crud : Int)
    (req : Request P D V R) (cm : Int) :
    (agent.route cb a crud req cm).a.con.Logbuf
      = a.con.Logbuf ++ emitted (agent.route cb a crud req cm).events := by
  obtain ⟨new, hev, hbuf, -, -, -⟩ := route_spec cb a crud req cm
  rw [hbuf, hev]; simp [emitted]

theorem serve_eq_rpcCall {H P D V R : Type} (cb : Collab H P D V R) (env : Env)
    (w : World H P D V R) (c : Rpc × Request P D V R) :
    serve cb env w c = rpcCall cb w (opOf env c.1) c.2 := by
  rcases c with ⟨k, req⟩
  cases k <;> rfl

theorem serveAll_append {H P D V R : Type} (cb : Collab H P D V R) (env : Env)
    (xs ys : List (Rpc × Request P D V R)) :
    ∀ w : World H P D V R,
      serveAll cb env w (xs ++ ys)
        = ((serveAll cb env (serveAll cb env w xs).1 ys).1,
           (serveAll cb env w xs).2 ++ (serveAll cb env (serveAll cb env w xs).1 ys).2) := by
  induction xs with
  | nil => intro w; simp [serveAll]
  | cons x xs ih => intro w; simp [serveAll, ih]

theorem serveAll_length {H P D V R : Type} (cb : Collab H P D V R) (env : Env)
    (xs : List (Rpc × Request P D V R)) :
    ∀ w : World H P D V R, (serveAll cb env w xs).2.length = xs.length := by
  induction xs with
  | nil => intro w; rfl
  | cons x xs ih => intro w; simp [serveAll, ih]

/-- C8 (as amended): in every sequence of Add/Update/Delete calls, the
`LogMessage` of each response is the whole log buffer as it stands when the
routing of that request ends: the content the buffer had when the call began,
followed by the text emitted while routing that request. -/
theorem response_log_is_whole_buffer {H P D V R : Type} (cb : Collab H P D V R) (env : Env)
    (w : World H P D V R) (pre : List (Rpc × Request P D V R)) (c : Rpc × Request P D V R)
    (post : List (Rpc × Request P D V R)) :
    ∃ resp, ((serveAll cb env w (pre ++ c :: post)).2)[pre.length]? = some resp ∧
      resp.LogMessage
        = (serveAll cb env w pre).1.a.con.Logbuf ++
          emitted (agent.route cb (serveAll cb env w pre).1.a (opOf env c.1) c.2
            cb.CONFIG).events := by
  refine ⟨(serve cb env (serveAll cb env w pre).1 c).2.1, ?_, ?_⟩
  · rw [serveAll_append]
    have hlen := serveAll_length cb env pre w
    rw [List.getElem?_append_right (by rw [hlen])]
    simp [serveAll, hlen]
  · rw [serve_eq_rpcCall]
    simp [rpcCall, World.route, agent.logMessage, route_logbuf]

/-- C8 (as stated) fails: the first `Add` after a fresh start in server mode
returns a `LogMessage` that begins with the two lines logged by the startup,
although routing that request emitted only the two router lines; this is so
even with a `WriteLog` that empties the buffer after each call. -/
theorem first_response_holds_startup_log :
    (serve cbOk ⟨0, 1, 2, 1⟩ (main cbOk ⟨0, 1, 2, 1⟩ "A" ⟨none, none, none, none⟩ "T " ())
        (Rpc.Add, ⟨some ⟨none, none, none, some 4⟩⟩)).2.1.LogMessage
      = "[A] T ### gRPC server mode ###\n[A] T Start mode: 0\n" ++
        "[A] T Routing to ROUTER module...\nrouter ok\n" ∧
    emitted (agent.route cbOk
        (main cbOk ⟨0, 1, 2, 1⟩ "A" ⟨none, none, none, none⟩ "T " ()).a 0
        ⟨some ⟨none, none, none, some 4⟩⟩ 0).events
      = "[A] T Routing to ROUTER module...\nrouter ok\n" ∧
    (serve cbOk ⟨0, 1, 2, 1⟩ (main cbOk ⟨0, 1, 2, 1⟩ "A" ⟨none, none, none, none⟩ "T " ())
        (Rpc.Add, ⟨some ⟨none, none, none, some 4⟩⟩)).2.1.LogMessage
      ≠ emitted (agent.route cbOk
        (main cbOk ⟨0, 1, 2, 1⟩ "A" ⟨none, none, none, none⟩ "T " ()).a 0
        ⟨some ⟨none, none, none, some 4⟩⟩ 0).events := by
  decide

end Nlan
